import Mathlib

/-!
Shallow embedding of the HexaCiphers coordinated-campaign detector
(`src/backend/detection/campaign_detector.py`) and of the keyword fallback
paths of the sentiment / stance classifier
(`src/backend/models/classifier.py`).

Modelling conventions:
* A `Post` is the concrete record the detector reads (duck-typed access in
  Python becomes plain fields).  `created_at` is a naive UTC timestamp in
  whole seconds; `datetime` subtraction `total_seconds()` becomes integer
  subtraction and `.hour` becomes `t / 3600 % 24`.
* Python floats become `ℚ`; every constant (`0.3`, `0.5`, ...) is exact in
  the source, so rational arithmetic is a faithful model of the arithmetic
  the code performs (no claim settled here sits on a float-rounding edge).
* `re.findall(r"#\w+", content.lower())` is modelled by a character-level
  scanner over the lowered content; `\w` is modelled for ASCII word
  characters (all inputs used in the development are ASCII).
* Python `set`/`dict` iteration order is not observable in any claim settled
  here; sets of users / hashtags are modelled with `List.dedup` (only the
  membership and cardinality of these collections feed the modelled fields).
* `list.sort(key=..., reverse=True)` / `sorted(...)` become `insertionSort`
  with the corresponding (total, transitive) relation.
* NetworkX (`NETWORKX_AVAILABLE = True` path): the shared-hashtag user graph
  is modelled by its adjacency predicate, connected components by an
  incremental merge fold, `nx.density` by `2E/(n(n-1))`.
-/

-- Rational arithmetic is sealed in the library; reopen it so concrete runs of
-- the embedded detector can be checked by kernel evaluation.
attribute [local semireducible] Rat.mul Rat.inv Rat.add Rat.sub

namespace HexaCiphers

/-! ## String helpers: substring search and `#\w+` extraction -/

/-- Python `str.lower()` (character-wise; exact for ASCII inputs). -/
def lowerString (s : String) : String := String.mk (s.data.map Char.toLower)

/-- Drop the first `n` characters of a string (Python `s[n:]`). -/
def dropChars (s : String) (n : Nat) : String := String.mk (s.data.drop n)

/-- A `\w` word character, modelled for ASCII (letters, digits, underscore). -/
def isWordChar (c : Char) : Bool := c.isAlphanum || c == '_'

/-- Membership of `needle` inside `hay` as a contiguous character run;
models Python `needle in hay`. -/
def containsSeq (needle : List Char) : List Char → Bool
  | [] => needle.isEmpty
  | c :: rest => needle.isPrefixOf (c :: rest) || containsSeq needle rest

/-- Python substring test `needle in hay`. -/
def substrOf (needle hay : String) : Bool := containsSeq needle.toList hay.toList

/-- Fuel-driven count of non-overlapping occurrences, scanning left to right;
models Python `str.count` for a non-empty needle. -/
def countOccAux (needle : List Char) : Nat → List Char → Nat
  | 0, _ => 0
  | _ + 1, [] => 0
  | fuel + 1, c :: rest =>
    if needle.isPrefixOf (c :: rest) then
      1 + countOccAux needle fuel (rest.drop (needle.length - 1))
    else countOccAux needle fuel rest

/-- Python `hay.count needle` (non-overlapping, left to right). -/
def countSubstr (hay needle : String) : Nat :=
  countOccAux needle.toList hay.toList.length hay.toList

/-- Build the emitted hashtag from the reversed accumulator of word chars. -/
def tagOfAcc (acc : List Char) : String := String.mk ('#' :: acc.reverse)

/-- State machine scanning all matches of `#\w+`; the optional accumulator
holds the reversed word characters of a candidate tag currently being read. -/
def scanTagsAux : Option (List Char) → List Char → List String
  | none, [] => []
  | some acc, [] => if acc.isEmpty then [] else [tagOfAcc acc]
  | none, c :: rest =>
    scanTagsAux (if c == '#' then some [] else none) rest
  | some acc, c :: rest =>
    if isWordChar c then scanTagsAux (some (c :: acc)) rest
    else
      let tl := scanTagsAux (if c == '#' then some [] else none) rest
      if acc.isEmpty then tl else tagOfAcc acc :: tl

/-- Models `re.findall(r"#\w+", content.lower())` from `_analyze_hashtag_activity`. -/
def extractHashtags (content : String) : List String :=
  scanTagsAux none (lowerString content).toList

/-! ## Posts and configuration -/

/-- The post record the detector consumes (object / dict duck-typing in the
source collapses to one concrete shape).  `created_at` is in seconds. -/
structure Post where
  user_id : String
  username : String
  content : String
  created_at : Nat
deriving DecidableEq, Repr

/-- Models `self.min_campaign_volume = 5`. -/
def minCampaignVolume : Nat := 5

/-- Models `self.bot_indicators_threshold = 3`. -/
def botIndicatorsThreshold : Nat := 3

/-! ## Bot username / suspicious hashtag patterns -/

/-- Regex `.*\d{8,}$` on a newline-free string: at least eight trailing
digits. -/
def endsWithEightDigits (s : String) : Bool :=
  8 ≤ (s.toList.reverse.takeWhile (fun c => c.isDigit)).length

/-- Regex `^[a-zA-Z]+\d{4,}$`: one or more letters followed by at least four
digits, spanning the whole string. -/
def lettersThenFourDigits (s : String) : Bool :=
  let l := s.toList
  let a := l.takeWhile (fun c => c.isAlpha)
  let b := l.drop a.length
  !a.isEmpty && 4 ≤ b.length && b.all (fun c => c.isDigit)

/-- Models `self.bot_username_patterns` (four patterns, in source order). -/
def botUsernamePatterns : List (String → Bool) :=
  [endsWithEightDigits, lettersThenFourDigits,
   fun s => substrOf "bot" s, fun s => substrOf "fake" s]

/-- Models `len(self.bot_username_patterns)`. -/
def botUsernamePatternCount : Nat := botUsernamePatterns.length

/-- Models `re.match(pattern, username.lower())` over the username patterns. -/
def matchesBotUsername (username : String) : Bool :=
  botUsernamePatterns.any (fun f => f (lowerString username))

/-- Models `re.match(pre ++ ".*" ++ mid, s)`: `s` starts with `pre` and contains
`mid` somewhere after it (hashtags are `#\w+` strings, newline-free). -/
def tagPat (pre mid : String) (s : String) : Bool :=
  pre.data.isPrefixOf s.data && substrOf mid (dropChars s pre.data.length)

/-- Models `self.suspicious_hashtag_patterns` (five patterns, in source order). -/
def suspiciousHashtagPatterns : List (String → Bool) :=
  [tagPat "#boycott" "india", tagPat "#anti" "india", tagPat "#fake" "india",
   tagPat "#destroy" "india", tagPat "#hate" "india"]

/-! ## Per-user bot-indicator pass (`_analyze_user_patterns`,
`_check_bot_indicators`) -/

/-- A user's posts in input order (`user_patterns[user_id]['posts']`). -/
def userPosts (posts : List Post) (u : String) : List Post :=
  posts.filter (fun p => p.user_id == u)

/-- Python `lst[-n:]`. -/
def lastN (n : Nat) (l : List α) : List α := l.drop (l.length - n)

/-- Models `if name not in indicators: indicators.append(name)`. -/
def addIndicator (inds : List String) (name : String) : List String :=
  if inds.contains name then inds else inds ++ [name]

/-- Consecutive differences of a timestamp list, in seconds
(`(t[i] - t[i-1]).total_seconds()`; may be negative for unsorted input). -/
def consecDiffs : List Nat → List Int
  | a :: b :: rest => ((b : Int) - (a : Int)) :: consecDiffs (b :: rest)
  | _ => []

/-- One call of `_check_bot_indicators` after the current post `p` has been
appended; `sofar` is the user's posts so far including `p`. -/
def checkBotStep (sofar : List Post) (p : Post) (inds : List String) : List String :=
  let i1 := if matchesBotUsername p.username then addIndicator inds "suspicious_username" else inds
  let i2 :=
    if 1 < sofar.length then
      let recent := lastN 5 (sofar.map (fun q => q.content))
      if (recent.dedup.length : ℚ) < (recent.length : ℚ) * (8/10) then
        addIndicator i1 "repetitive_content"
      else i1
    else i1
  if 1 < sofar.length then
    let diffs := consecDiffs (sofar.map (fun q => q.created_at))
    let avg : ℚ := if diffs.isEmpty then 0 else (diffs.sum : ℚ) / (diffs.length : ℚ)
    if avg < 300 then addIndicator i2 "high_frequency_posting" else i2
  else i2

/-- Fold of `_check_bot_indicators` over a user's posts in input order. -/
def botIndicatorsAux : List Post → List Post → List String → List String
  | _, [], inds => inds
  | sofar, p :: rest, inds =>
    botIndicatorsAux (sofar ++ [p]) rest (checkBotStep (sofar ++ [p]) p inds)

/-- Models `user_patterns[u]['bot_indicators']` after the whole batch is processed;
the argument is the user's posts in input order. -/
def botIndicators (ps : List Post) : List String := botIndicatorsAux [] ps []

/-! ## Hashtag activity aggregation (`_analyze_hashtag_activity`) -/

/-- Hashtags of one post (with multiplicity, as `re.findall` returns them). -/
def hashtagsOf (p : Post) : List String := extractHashtags p.content

/-- The keys of the `hashtag_activity` dict (each hashtag seen in the batch). -/
def allTags (posts : List Post) : List String :=
  (posts.flatMap hashtagsOf).dedup

/-- Models `hashtag_activity[h]['posts']`: each post repeated once per occurrence of
`h` in its extracted hashtag list (the source appends inside
`for hashtag in hashtags`). -/
def tagOccurrences (h : String) (posts : List Post) : List Post :=
  posts.flatMap (fun p => List.replicate ((hashtagsOf p).count h) p)

/-- Models `hashtag_activity[h]['total_posts']`. -/
def tagTotal (h : String) (posts : List Post) : Nat :=
  (tagOccurrences h posts).length

/-- Models `sorted(activity['timestamps'])` for hashtag `h`. -/
def tagSortedTs (h : String) (posts : List Post) : List Nat :=
  List.insertionSort (· ≤ ·) ((tagOccurrences h posts).map (fun p => p.created_at))

/-- Models `list(activity['users'])`: the distinct user ids of the group. -/
def tagUsers (h : String) (posts : List Post) : List String :=
  ((tagOccurrences h posts).map (fun p => p.user_id)).dedup

/-- Models `timestamps[0]` of the sorted timestamps. -/
def tagFirst (h : String) (posts : List Post) : Nat := (tagSortedTs h posts).headD 0

/-- Models `timestamps[-1]` of the sorted timestamps. -/
def tagLast (h : String) (posts : List Post) : Nat := (tagSortedTs h posts).getLastD 0

/-- Models `(timestamps[-1] - timestamps[0]).total_seconds() / 3600`. -/
def tagSpan (h : String) (posts : List Post) : ℚ :=
  ((tagLast h posts : ℚ) - (tagFirst h posts : ℚ)) / 3600

/-- Models `activity['total_posts'] / len(activity['users'])` (float division). -/
def tagAvgPostsPerUser (h : String) (posts : List Post) : ℚ :=
  (tagTotal h posts : ℚ) / ((tagUsers h posts).length : ℚ)

/-- Models `datetime.hour` of an epoch-seconds timestamp. -/
def hourOf (t : Nat) : Nat := t / 3600 % 24

/-- Models `max(hour_distribution.values())` (`0` for an empty distribution). -/
def maxHourCount (ts : List Nat) : Nat :=
  let hrs := ts.map hourOf
  (hrs.map (fun x => hrs.count x)).foldr max 0

/-- The coordination indicator list of a hashtag group, built in source
order: `rapid_posting`, `repeated_posting`, `suspicious_hashtag`,
`concentrated_timing`. -/
def tagIndicators (h : String) (posts : List Post) : List String :=
  let i1 := if tagSpan h posts < 2 ∧ 10 < tagTotal h posts then ["rapid_posting"] else []
  let i2 := i1 ++ (if 3 < tagAvgPostsPerUser h posts then ["repeated_posting"] else [])
  let i3 := i2 ++ (if suspiciousHashtagPatterns.any (fun f => f h) then ["suspicious_hashtag"] else [])
  i3 ++ (if (tagTotal h posts : ℚ) * (1/2) < (maxHourCount (tagSortedTs h posts) : ℚ) then
           ["concentrated_timing"] else [])

/-- One value of the `coordinated` dict built by
`_detect_coordinated_hashtags`. -/
structure TagActivity where
  total_posts : Nat
  users : List String
  time_span : ℚ
  first_post : Nat
  last_post : Nat
  indicators : List String
  avg_posts_per_user : ℚ
deriving DecidableEq, Repr

/-- Models `_detect_coordinated_hashtags` restricted to one hashtag: `none` when the
group is skipped (volume below `min_campaign_volume`, or fewer than two
timestamps), otherwise the `coordinated[h]` entry. -/
def coordEntry (posts : List Post) (h : String) : Option TagActivity :=
  if tagTotal h posts < minCampaignVolume then none
  else if (tagSortedTs h posts).length < 2 then none
  else some ⟨tagTotal h posts, tagUsers h posts, tagSpan h posts, tagFirst h posts,
             tagLast h posts, tagIndicators h posts, tagAvgPostsPerUser h posts⟩

/-- Models `_calculate_risk_score(activity, user_patterns)`. -/
def riskScore (posts : List Post) (a : TagActivity) : ℚ :=
  let volumeScore := min 1 ((a.total_posts : ℚ) / 100)
  let s1 := volumeScore * (3/10)
  let s2 := s1 + (if a.time_span < 1 then 3/10 else if a.time_span < 6 then 2/10 else 0)
  let botUsers := a.users.countP
    (fun u => decide (botIndicatorsThreshold ≤ (botIndicators (userPosts posts u)).length))
  let s3 := if 0 < a.users.length then
              s2 + ((botUsers : ℚ) / (a.users.length : ℚ)) * (3/10)
            else s2
  let s4 := s3 + (a.indicators.length : ℚ) * (1/10)
  min 1 s4

/-- A detector output record (`campaign` dict in `detect_campaigns`). -/
structure Campaign where
  hashtag : String
  volume : Nat
  unique_users : Nat
  time_span : ℚ
  risk_score : ℚ
  first_detected : Nat
  last_detected : Nat
  suspicious_indicators : List String
  user_network : List String
deriving DecidableEq, Repr

/-- The campaign record built from a coordinated hashtag group. -/
def tagCampaign (posts : List Post) (h : String) (a : TagActivity) : Campaign :=
  ⟨h, a.total_posts, a.users.length, a.time_span, riskScore posts a,
   a.first_post, a.last_post, a.indicators, a.users.take 10⟩

/-- The hashtag-based campaigns of a batch. -/
def hashtagCampaigns (posts : List Post) : List Campaign :=
  (allTags posts).filterMap (fun h => (coordEntry posts h).map (tagCampaign posts h))

/-! ## Network detection (`_detect_suspicious_networks`), with the graph
library available (`NETWORKX_AVAILABLE = True`) -/

/-- The graph's node list: every post's user id (dict-key order modelled by
first-occurrence dedup is irrelevant to the settled claims). -/
def usersOf (posts : List Post) : List String :=
  (posts.map (fun p => p.user_id)).dedup

/-- Hashtags a user has used (with multiplicity; only membership matters). -/
def userTags (posts : List Post) (u : String) : List String :=
  (userPosts posts u).flatMap hashtagsOf

/-- Models `u` and `v` appear together in some `hashtag_users` set. -/
def usersShareTag (posts : List Post) (u v : String) : Bool :=
  (userTags posts u).any (fun t => (userTags posts v).contains t)

/-- The edge relation of the interaction graph. -/
def adjacent (posts : List Post) (u v : String) : Bool :=
  u != v && usersShareTag posts u v

/-- Insert one node into a running component decomposition: merge every
existing component adjacent to `u` with `u`. -/
def addUserToComponents (isAdj : String → String → Bool)
    (comps : List (List String)) (u : String) : List (List String) :=
  let linked := comps.filter (fun c => c.any (isAdj u))
  let rest := comps.filter (fun c => !(c.any (isAdj u)))
  (u :: linked.flatten) :: rest

/-- Fold of `addUserToComponents` over the node list. -/
def componentsAux (isAdj : String → String → Bool) :
    List String → List (List String) → List (List String)
  | [], comps => comps
  | u :: us, comps => componentsAux isAdj us (addUserToComponents isAdj comps u)

/-- Models `nx.connected_components(G)` of the shared-hashtag user graph. -/
def components (posts : List Post) : List (List String) :=
  componentsAux (adjacent posts) (usersOf posts) []

/-- Number of edges among a duplicate-free node list. -/
def pairEdgeCount (isAdj : String → String → Bool) : List String → Nat
  | [] => 0
  | u :: rest => rest.countP (isAdj u) + pairEdgeCount isAdj rest

/-- Models `nx.density(subgraph)` = `2E / (n(n-1))`, `0` for `n ≤ 1`. -/
def density (posts : List Post) (c : List String) : ℚ :=
  let n := c.length
  if n ≤ 1 then 0
  else (2 * (pairEdgeCount (adjacent posts) c) : ℚ) / ((n : ℚ) * ((n : ℚ) - 1))

/-- Posts whose user id belongs to the component. -/
def networkPosts (posts : List Post) (c : List String) : List Post :=
  posts.filter (fun p => c.contains p.user_id)

/-- Python `min(timestamps)` (0 on the empty list, never hit in the source). -/
def listMinD : List Nat → Nat
  | [] => 0
  | a :: t => t.foldl min a

/-- Python `max(timestamps)` (0 on the empty list, never hit in the source). -/
def listMaxD : List Nat → Nat
  | [] => 0
  | a :: t => t.foldl max a

/-- The `coordinated_timing` test of `_get_network_indicators`: more than 30%
of consecutive gaps of the sorted timestamps are under 60 seconds. -/
def coordTiming (nps : List Post) : Bool :=
  let ts := nps.map (fun p => p.created_at)
  if 1 < ts.length then
    let diffs := consecDiffs (List.insertionSort (· ≤ ·) ts)
    decide ((diffs.length : ℚ) * (3/10) < (diffs.countP (fun d => decide (d < 60)) : ℚ))
  else false

/-- Models `_get_network_indicators(subgraph, network_posts)`. -/
def networkIndicators (posts : List Post) (c : List String) (nps : List Post) : List String :=
  (if (7/10 : ℚ) < density posts c then ["high_density_network"] else []) ++
  (if coordTiming nps then ["coordinated_timing"] else [])

/-- One entry of the `networks` list of `_detect_suspicious_networks`. -/
structure Network where
  id : String
  users : List String
  size : Nat
  density : ℚ
  total_posts : Nat
  risk_score : ℚ
  first_activity : Nat
  last_activity : Nat
  time_span : ℚ
  indicators : List String
deriving DecidableEq, Repr

/-- The network record for component `c` appended as the `idx`-th network. -/
def mkNetwork (posts : List Post) (idx : Nat) (c : List String) (nps : List Post) : Network :=
  let ts := nps.map (fun p => p.created_at)
  let d := density posts c
  { id := "net_" ++ toString idx
    users := c
    size := c.length
    density := d
    total_posts := nps.length
    risk_score := min 1 (d * (c.length : ℚ) / 10)
    first_activity := listMinD ts
    last_activity := listMaxD ts
    time_span := ((listMaxD ts : ℚ) - (listMinD ts : ℚ)) / 3600
    indicators := networkIndicators posts c nps }

/-- The loop body of `_detect_suspicious_networks`: skip a component with no
posts, otherwise append its network record (id taken from the running
length, as `f"net_{len(networks)}"` does). -/
def networksStep (posts : List Post) (acc : List Network) (c : List String) : List Network :=
  let nps := networkPosts posts c
  if nps.isEmpty then acc else acc ++ [mkNetwork posts acc.length c nps]

/-- Models `_detect_suspicious_networks(posts)`: one network per connected component
of size at least 3 with a nonempty post list, ids assigned in order. -/
def suspiciousNetworks (posts : List Post) : List Network :=
  ((components posts).filter (fun c => decide (3 ≤ c.length))).foldl (networksStep posts) []

/-- The campaign record built from a network entry in `detect_campaigns`. -/
def networkCampaign (n : Network) : Campaign :=
  ⟨"network_" ++ n.id, n.total_posts, n.users.length, n.time_span, n.risk_score,
   n.first_activity, n.last_activity, n.indicators, n.users⟩

/-- Models `campaigns.sort(key=lambda x: x['risk_score'], reverse=True)` ordering. -/
def riskDesc (a b : Campaign) : Prop := b.risk_score ≤ a.risk_score

instance : DecidableRel riskDesc :=
  fun a b => inferInstanceAs (Decidable (b.risk_score ≤ a.risk_score))

instance : IsTotal Campaign riskDesc := ⟨fun a b => le_total b.risk_score a.risk_score⟩

instance : IsTrans Campaign riskDesc := ⟨fun _ _ _ h1 h2 => le_trans h2 h1⟩

/-- Models `CampaignDetector.detect_campaigns`: hashtag campaigns, then the network
campaigns whose risk exceeds 0.5, sorted by descending risk score. -/
def detectCampaigns (posts : List Post) : List Campaign :=
  List.insertionSort riskDesc
    (hashtagCampaigns posts ++
     ((suspiciousNetworks posts).filter
        (fun n => decide ((1/2 : ℚ) < n.risk_score))).map networkCampaign)

/-! ## Bot-user detection (`detect_bot_users`) -/

/-- One entry of the list returned by `detect_bot_users`. -/
structure BotFlag where
  user_id : String
  bot_score : ℚ
  indicators : List String
  post_count : Nat
  hashtag_count : Nat
  risk_level : String
deriving DecidableEq, Repr

/-- Models `sorted(bots, key=lambda x: x['bot_score'], reverse=True)` ordering. -/
def botScoreDesc (a b : BotFlag) : Prop := b.bot_score ≤ a.bot_score

instance : DecidableRel botScoreDesc :=
  fun a b => inferInstanceAs (Decidable (b.bot_score ≤ a.bot_score))

instance : IsTotal BotFlag botScoreDesc := ⟨fun a b => le_total b.bot_score a.bot_score⟩

instance : IsTrans BotFlag botScoreDesc := ⟨fun _ _ _ h1 h2 => le_trans h2 h1⟩

/-- Models `CampaignDetector.detect_bot_users`. -/
def detectBotUsers (posts : List Post) : List BotFlag :=
  let flags := (usersOf posts).filterMap (fun u =>
    let ps := userPosts posts u
    let inds := botIndicators ps
    let score : ℚ := (inds.length : ℚ) / ((max botUsernamePatternCount 1 : Nat) : ℚ)
    if botIndicatorsThreshold ≤ inds.length then
      some { user_id := u
             bot_score := min 1 score
             indicators := inds
             post_count := ps.length
             hashtag_count := (ps.flatMap hashtagsOf).dedup.length
             risk_level := if (7/10 : ℚ) < score then "high" else "medium" }
    else none)
  List.insertionSort botScoreDesc flags

/-! ## Keyword fallback classifier (`src/backend/models/classifier.py`),
model-not-loaded path (`self.loaded = False`) -/

/-- Models `self.sentiment_keywords['positive']`. -/
def positiveKeywords : List String :=
  ["good", "great", "excellent", "amazing", "wonderful", "love", "like", "happy", "proud"]

/-- Models `self.sentiment_keywords['negative']`. -/
def negativeKeywords : List String :=
  ["bad", "terrible", "awful", "hate", "dislike", "angry", "sad", "disappointed"]

/-- Result of `classify_sentiment` (dict fields as a record; the empty-input
branch carries no `model_used` key, modelled as `""`). -/
structure SentimentResult where
  sentiment : String
  confidence : ℚ
  scores : List (String × ℚ)
  model_used : String
deriving DecidableEq, Repr

/-- Number of positive keywords occurring in the lowered text. -/
def posCount (text : String) : Nat :=
  positiveKeywords.countP (fun w => substrOf w (lowerString text))

/-- Number of negative keywords occurring in the lowered text. -/
def negCount (text : String) : Nat :=
  negativeKeywords.countP (fun w => substrOf w (lowerString text))

/-- Models `SentimentClassifier._keyword_based_sentiment`. -/
def keywordBasedSentiment (text : String) : SentimentResult :=
  let pc := posCount text
  let nc := negCount text
  if pc + nc = 0 then
    ⟨"neutral", 3/5, [("positive", 1/5), ("negative", 1/5), ("neutral", 3/5)], "keyword_fallback"⟩
  else if nc < pc then
    let conf : ℚ := (pc : ℚ) / ((pc + nc : Nat) : ℚ)
    ⟨"positive", conf, [("positive", conf), ("negative", 1 - conf), ("neutral", 0)], "keyword_fallback"⟩
  else if pc < nc then
    let conf : ℚ := (nc : ℚ) / ((pc + nc : Nat) : ℚ)
    ⟨"negative", conf, [("negative", conf), ("positive", 1 - conf), ("neutral", 0)], "keyword_fallback"⟩
  else
    ⟨"neutral", 1/2, [("positive", 1/4), ("negative", 1/4), ("neutral", 1/2)], "keyword_fallback"⟩

/-- Models `SentimentClassifier.classify_sentiment` in keyword-fallback mode:
the `if not text` early return, then `_keyword_based_sentiment`. -/
def classifySentiment (text : String) : SentimentResult :=
  if text = "" then
    ⟨"neutral", 0, [("positive", 0), ("negative", 0), ("neutral", 1)], ""⟩
  else keywordBasedSentiment text

/-- Models `self.india_keywords['pro_india']`. -/
def proIndiaPhrases : List String :=
  ["proud india", "love india", "support india", "incredible india", "digital india",
   "make in india"]

/-- Models `self.india_keywords['anti_india']`. -/
def antiIndiaPhrases : List String :=
  ["boycott india", "anti india", "hate india", "destroy india", "fake india"]

/-- Result of `classify_india_relation`. -/
structure IndiaResult where
  classification : String
  confidence : ℚ
  scores : List (String × ℚ)
deriving DecidableEq, Repr

/-- Number of pro-India phrases occurring in the lowered text. -/
def proCount (text : String) : Nat :=
  proIndiaPhrases.countP (fun w => substrOf w (lowerString text))

/-- Number of anti-India phrases occurring in the lowered text. -/
def antiCount (text : String) : Nat :=
  antiIndiaPhrases.countP (fun w => substrOf w (lowerString text))

/-- Models `text_lower.count('india') + text_lower.count('भारत')`. -/
def indiaMentions (text : String) : Nat :=
  countSubstr (lowerString text) "india" + countSubstr (lowerString text) "भारत"

/-- Models `SentimentClassifier.classify_india_relation` (the stance classifier). -/
def classifyIndiaRelation (text : String) : IndiaResult :=
  if text = "" then
    ⟨"Neutral", 0, [("Pro-India", 0), ("Anti-India", 0), ("Neutral", 1)]⟩
  else
    let pc := proCount text
    let ac := antiCount text
    if pc + ac = 0 then
      if 0 < indiaMentions text then
        ⟨"Neutral", min (7/10) ((indiaMentions text : ℚ) * (1/5)),
         [("Pro-India", 1/5), ("Anti-India", 1/5), ("Neutral", 3/5)]⟩
      else
        ⟨"Neutral", 9/10, [("Pro-India", 1/20), ("Anti-India", 1/20), ("Neutral", 9/10)]⟩
    else if ac < pc then
      let conf := min (9/10 : ℚ) ((pc : ℚ) / ((max (pc + ac) 1 : Nat) : ℚ))
      ⟨"Pro-India", conf, [("Pro-India", conf), ("Anti-India", 1 - conf), ("Neutral", 0)]⟩
    else if pc < ac then
      let conf := min (9/10 : ℚ) ((ac : ℚ) / ((max (pc + ac) 1 : Nat) : ℚ))
      ⟨"Anti-India", conf, [("Anti-India", conf), ("Pro-India", 1 - conf), ("Neutral", 0)]⟩
    else
      ⟨"Neutral", 3/5, [("Pro-India", 1/5), ("Anti-India", 1/5), ("Neutral", 3/5)]⟩

/-- The order-independent summary of a coordinated hashtag group: volume,
number of unique users, time span, first and last timestamp, indicators
(every Campaign field of the group except `risk_score` and the
user-sample list). -/
def coordSummary (posts : List Post) (h : String) :
    Option (Nat × Nat × ℚ × Nat × Nat × List String) :=
  (coordEntry posts h).map
    (fun a => (a.total_posts, a.users.length, a.time_span, a.first_post, a.last_post,
               a.indicators))

-- Concrete batches used by the settled claims.

/-- Shorthand constructor for a concrete post. -/
def mkP (u un c : String) (t : Nat) : Post := ⟨u, un, c, t⟩
-- C1 counterexample batches
def psA : List Post :=
  [mkP "u" "botuser" "#x a" 0, mkP "u" "botuser" "#x a" 0, mkP "u" "botuser" "#x b" 0,
   mkP "u" "botuser" "#x c" 0, mkP "u" "botuser" "#x d" 0, mkP "u" "botuser" "#x e" 0,
   mkP "u" "botuser" "#x f" 0, mkP "v" "alice" "#x v" 36000]
def psB : List Post :=
  [mkP "u" "botuser" "#x a" 0, mkP "u" "botuser" "#x b" 0, mkP "u" "botuser" "#x c" 0,
   mkP "u" "botuser" "#x d" 0, mkP "u" "botuser" "#x e" 0, mkP "u" "botuser" "#x f" 0,
   mkP "u" "botuser" "#x a" 0, mkP "v" "alice" "#x v" 36000]
-- C2 scenario batch
def ps2 : List Post :=
  [mkP "u1" "alice" "#test a1" 1000, mkP "u1" "alice" "#test a2" 1300,
   mkP "u1" "alice" "#test a3" 1600, mkP "u1" "alice" "#test a4" 1900,
   mkP "u2" "carol" "#test b1" 2200, mkP "u2" "carol" "#test b2" 2500]
-- C3: boundary batches and the same-timestamp batch
def b5 : List Post :=
  [mkP "u1" "alice" "#t 1" 100, mkP "u1" "alice" "#t 2" 5000, mkP "u1" "alice" "#t 3" 9000,
   mkP "u2" "carol" "#t 4" 13000, mkP "u2" "carol" "#t 5" 17000]
def b4 : List Post := b5.take 4
def b5same : List Post :=
  [mkP "u1" "alice" "#s 1" 100, mkP "u1" "alice" "#s 2" 100, mkP "u1" "alice" "#s 3" 100,
   mkP "u2" "carol" "#s 4" 100, mkP "u2" "carol" "#s 5" 100]
-- C5 triangle batch
def ps3 : List Post :=
  [mkP "w1" "ann" "#y hi" 10, mkP "w2" "ben" "#y ho" 500, mkP "w3" "cat" "#y he" 900]
-- C5 witness batch: 6 users sharing one hashtag
def ps6 : List Post :=
  [mkP "n1" "a1" "#n 1" 0, mkP "n2" "a2" "#n 2" 10, mkP "n3" "a3" "#n 3" 20,
   mkP "n4" "a4" "#n 4" 30, mkP "n5" "a5" "#n 5" 40, mkP "n6" "a6" "#n 6" 50]
-- C6/C10 bot batch
def psBot : List Post :=
  [mkP "b" "botman" "same text" 100, mkP "b" "botman" "same text" 101]
/-- The bot flag `detect_bot_users` produces for the batch `psBot`. -/
def botFlagW : BotFlag :=
  ⟨"b", 3/4, ["suspicious_username", "repetitive_content", "high_frequency_posting"],
   2, 0, "high"⟩

/-! ## Permutation invariance of the hashtag-group aggregates (claim C1) -/

theorem tagOccurrences_perm (h : String) {ps1 ps2 : List Post} (hp : ps1.Perm ps2) :
    (tagOccurrences h ps1).Perm (tagOccurrences h ps2) :=
  hp.flatMap_right _

theorem tagTotal_perm (h : String) {ps1 ps2 : List Post} (hp : ps1.Perm ps2) :
    tagTotal h ps1 = tagTotal h ps2 :=
  (tagOccurrences_perm h hp).length_eq

theorem tagSortedTs_perm (h : String) {ps1 ps2 : List Post} (hp : ps1.Perm ps2) :
    tagSortedTs h ps1 = tagSortedTs h ps2 := by
  refine List.eq_of_perm_of_sorted ?_
    (List.sorted_insertionSort _ _) (List.sorted_insertionSort _ _)
  exact (List.perm_insertionSort _ _).trans
    (((tagOccurrences_perm h hp).map _).trans (List.perm_insertionSort _ _).symm)

theorem tagUsersLen_perm (h : String) {ps1 ps2 : List Post} (hp : ps1.Perm ps2) :
    (tagUsers h ps1).length = (tagUsers h ps2).length :=
  (((tagOccurrences_perm h hp).map _).dedup).length_eq

theorem tagFirst_perm (h : String) {ps1 ps2 : List Post} (hp : ps1.Perm ps2) :
    tagFirst h ps1 = tagFirst h ps2 := by
  unfold tagFirst; rw [tagSortedTs_perm h hp]

theorem tagLast_perm (h : String) {ps1 ps2 : List Post} (hp : ps1.Perm ps2) :
    tagLast h ps1 = tagLast h ps2 := by
  unfold tagLast; rw [tagSortedTs_perm h hp]

theorem tagSpan_perm (h : String) {ps1 ps2 : List Post} (hp : ps1.Perm ps2) :
    tagSpan h ps1 = tagSpan h ps2 := by
  unfold tagSpan; rw [tagFirst_perm h hp, tagLast_perm h hp]

theorem tagAvg_perm (h : String) {ps1 ps2 : List Post} (hp : ps1.Perm ps2) :
    tagAvgPostsPerUser h ps1 = tagAvgPostsPerUser h ps2 := by
  unfold tagAvgPostsPerUser; rw [tagTotal_perm h hp, tagUsersLen_perm h hp]

theorem tagIndicators_perm (h : String) {ps1 ps2 : List Post} (hp : ps1.Perm ps2) :
    tagIndicators h ps1 = tagIndicators h ps2 := by
  unfold tagIndicators
  rw [tagSpan_perm h hp, tagTotal_perm h hp, tagAvg_perm h hp, tagSortedTs_perm h hp]

theorem coordSummary_perm (h : String) {ps1 ps2 : List Post} (hp : ps1.Perm ps2) :
    coordSummary ps1 h = coordSummary ps2 h := by
  unfold coordSummary coordEntry
  rw [tagTotal_perm h hp, tagSortedTs_perm h hp, tagSpan_perm h hp, tagFirst_perm h hp,
    tagLast_perm h hp, tagIndicators_perm h hp, tagAvg_perm h hp]
  split_ifs <;> simp [tagUsersLen_perm h hp]

theorem allTags_perm {ps1 ps2 : List Post} (hp : ps1.Perm ps2) :
    (allTags ps1).Perm (allTags ps2) :=
  (hp.flatMap_right _).dedup

/-- C1, counterexample: `psB` is a permutation of `psA` (one duplicate-content
post of user `u` moved to the end), yet the single `#x` campaign keeps a
different risk score: in `psA` the duplicate contents are adjacent, so the
last-5-posts window fires `repetitive_content`, user `u` reaches 3 bot
indicators, and the bot-ratio term adds 0.15 to the risk score; in `psB` the
duplicates are 6 posts apart and never share a window.  Hence permuting the
input does not preserve the set of Campaign records with their risk scores. -/
theorem detectCampaigns_not_order_invariant :
    psA.Perm psB ∧
    (detectCampaigns psA).map (fun c => (c.hashtag, c.risk_score)) = [("#x", 187/500)] ∧
    (detectCampaigns psB).map (fun c => (c.hashtag, c.risk_score)) = [("#x", 28/125)] ∧
    (detectCampaigns psA).map (fun c => (c.hashtag, c.risk_score)) ≠
      (detectCampaigns psB).map (fun c => (c.hashtag, c.risk_score)) :=
  ⟨by decide, by decide, by decide, by decide⟩

/-- C1 (amended): for every pair of batches that are permutations of each
other, the detector's hashtag-group output agrees on the set of hashtags and,
for every hashtag, on volume, unique-user count, time span, first/last
timestamp and indicator list (`coordSummary`); the risk score is excluded,
because the per-user bot-indicator pass is order sensitive. -/
theorem detectCampaigns_order_invariant_summary {ps1 ps2 : List Post}
    (hp : ps1.Perm ps2) :
    (allTags ps1).Perm (allTags ps2) ∧ ∀ h, coordSummary ps1 h = coordSummary ps2 h :=
  ⟨allTags_perm hp, fun h => coordSummary_perm h hp⟩

/-- Witness for C1 (amended) at the concrete permuted pair `psA`, `psB`. -/
theorem detectCampaigns_order_invariant_summary_witness :
    psA.Perm psB ∧ (allTags psA).Perm (allTags psB) ∧
    coordSummary psA "#x" = coordSummary psB "#x" :=
  ⟨by decide, (detectCampaigns_order_invariant_summary (by decide)).1,
   (detectCampaigns_order_invariant_summary (by decide)).2 "#x"⟩

/-- C2, counterexample: the spec scenario (6 posts, all `#test`, within a
30-minute span, 2 distinct users, one posting 4 times) produces a `#test`
campaign whose indicator list is `["concentrated_timing"]` only:
`rapid_posting` requires more than 10 posts and `repeated_posting` requires
an average strictly above 3 posts per user, while 6/2 = 3. -/
theorem rapid_and_repeated_posting_missing_in_scenario :
    ps2.length = 6 ∧
    ps2.all (fun p => (hashtagsOf p).contains "#test") = true ∧
    (ps2.map (fun p => p.user_id)).dedup.length = 2 ∧
    (userPosts ps2 "u1").length = 4 ∧
    tagSpan "#test" ps2 ≤ 1/2 ∧
    (detectCampaigns ps2).map (fun c => (c.hashtag, c.suspicious_indicators)) =
      [("#test", ["concentrated_timing"])] :=
  ⟨by decide, by decide, by decide, by decide, by decide, by decide⟩

/-- C2 (amended): in the scenario the `#test` campaign is returned with a
strictly positive risk score (0.418), but its indicator list contains
neither `rapid_posting` (needs `total_posts > 10`) nor `repeated_posting`
(needs average posts per user `> 3`; here it is exactly 3). -/
theorem scenario_campaign_risk_positive_without_posting_indicators :
    (detectCampaigns ps2).map (fun c => (c.hashtag, c.suspicious_indicators, c.risk_score)) =
      [("#test", ["concentrated_timing"], 209/500)] ∧
    (detectCampaigns ps2).all (fun c => decide (0 < c.risk_score)) = true :=
  ⟨by decide, by decide⟩

/-- C7: full characterization of `classify_sentiment` in keyword-fallback
mode: empty input is neutral with confidence 0; when no keyword of either
polarity occurs the result is neutral with confidence 0.6; otherwise the
higher-count polarity wins with confidence `winner / (pos + neg)` and a
nonzero tie is neutral with confidence 0.5. -/
theorem keyword_sentiment_characterization (text : String) :
    (text = "" → classifySentiment text =
        ⟨"neutral", 0, [("positive", 0), ("negative", 0), ("neutral", 1)], ""⟩) ∧
    (text ≠ "" → posCount text + negCount text = 0 →
        (classifySentiment text).sentiment = "neutral" ∧
        (classifySentiment text).confidence = 3/5) ∧
    (text ≠ "" → negCount text < posCount text →
        (classifySentiment text).sentiment = "positive" ∧
        (classifySentiment text).confidence =
          (posCount text : ℚ) / ((posCount text + negCount text : Nat) : ℚ)) ∧
    (text ≠ "" → posCount text < negCount text →
        (classifySentiment text).sentiment = "negative" ∧
        (classifySentiment text).confidence =
          (negCount text : ℚ) / ((posCount text + negCount text : Nat) : ℚ)) ∧
    (text ≠ "" → posCount text = negCount text → posCount text + negCount text ≠ 0 →
        (classifySentiment text).sentiment = "neutral" ∧
        (classifySentiment text).confidence = 1/2) := by
  refine ⟨fun h => by simp [classifySentiment, h], fun hne h0 => ?_, fun hne hlt => ?_,
    fun hne hlt => ?_, fun hne heq h0 => ?_⟩
  · simp [classifySentiment, hne, keywordBasedSentiment, h0]
  · have h0 : ¬(posCount text + negCount text = 0) := by omega
    simp [classifySentiment, hne, keywordBasedSentiment, h0, hlt]
  · have h0 : ¬(posCount text + negCount text = 0) := by omega
    have h2 : ¬(negCount text < posCount text) := by omega
    simp [classifySentiment, hne, keywordBasedSentiment, h0, h2, hlt]
  · have h2 : ¬(negCount text < posCount text) := by omega
    have h3 : ¬(posCount text < negCount text) := by omega
    simp [classifySentiment, hne, keywordBasedSentiment, h0, h2, h3]

/-- Witness for C7 at `"good"` (one positive keyword, no negative one). -/
theorem keyword_sentiment_characterization_witness :
    ("good" ≠ "" ∧ negCount "good" < posCount "good") ∧
    (classifySentiment "good").sentiment = "positive" ∧
    (classifySentiment "good").confidence =
      (posCount "good" : ℚ) / ((posCount "good" + negCount "good" : Nat) : ℚ) :=
  ⟨⟨by decide, by decide⟩,
   ((keyword_sentiment_characterization "good").2.2.1 (by decide) (by decide)).1,
   ((keyword_sentiment_characterization "good").2.2.1 (by decide) (by decide)).2⟩

/-! ## The three per-user bot indicators (claims C6, C10) -/

/-- The only indicator names `_check_bot_indicators` can produce. -/
def botIndicatorNames : List String :=
  ["suspicious_username", "repetitive_content", "high_frequency_posting"]

/-- An indicator list is well formed when it is duplicate free and draws from
the three known names. -/
def GoodInds (inds : List String) : Prop :=
  inds.Nodup ∧ ∀ x ∈ inds, x ∈ botIndicatorNames

theorem addIndicator_nodup {inds : List String} {name : String} (h : inds.Nodup) :
    (addIndicator inds name).Nodup := by
  unfold addIndicator
  split_ifs with hc
  · exact h
  · have hnm : name ∉ inds := by simpa using hc
    simp [List.nodup_append, h, hnm]

theorem addIndicator_sub {inds : List String} {name : String} :
    ∀ x ∈ addIndicator inds name, x ∈ inds ∨ x = name := by
  unfold addIndicator
  split_ifs with hc
  · exact fun x hx => Or.inl hx
  · intro x hx
    simpa using hx

theorem goodInds_addIndicator {inds : List String} {name : String}
    (hg : GoodInds inds) (hn : name ∈ botIndicatorNames) :
    GoodInds (addIndicator inds name) :=
  ⟨addIndicator_nodup hg.1,
   fun x hx => (addIndicator_sub x hx).elim (hg.2 x) (fun he => he ▸ hn)⟩

theorem goodInds_checkBotStep {sofar : List Post} {p : Post} {inds : List String}
    (hg : GoodInds inds) : GoodInds (checkBotStep sofar p inds) := by
  dsimp only [checkBotStep]
  split_ifs <;>
    repeat first
      | exact hg
      | refine goodInds_addIndicator ?_ (by decide)

theorem goodInds_botIndicatorsAux :
    ∀ (rest sofar : List Post) (inds : List String), GoodInds inds →
      GoodInds (botIndicatorsAux sofar rest inds)
  | [], _, _, hg => hg
  | _ :: rest, _, _, hg =>
    goodInds_botIndicatorsAux rest _ _ (goodInds_checkBotStep hg)

theorem goodInds_botIndicators (ps : List Post) : GoodInds (botIndicators ps) :=
  goodInds_botIndicatorsAux ps [] [] ⟨List.nodup_nil, by simp⟩

theorem botIndicators_length_le (ps : List Post) : (botIndicators ps).length ≤ 3 :=
  (List.subperm_of_subset (goodInds_botIndicators ps).1
    (goodInds_botIndicators ps).2).length_le

/-- Inversion of membership in `detectBotUsers`. -/
theorem mem_detectBotUsers {posts : List Post} {b : BotFlag}
    (hb : b ∈ detectBotUsers posts) :
    ∃ u, botIndicatorsThreshold ≤ (botIndicators (userPosts posts u)).length ∧
      b.indicators = botIndicators (userPosts posts u) ∧
      b.bot_score =
        min 1 ((b.indicators.length : ℚ) / ((max botUsernamePatternCount 1 : Nat) : ℚ)) ∧
      b.risk_level =
        (if (7/10 : ℚ) <
            (b.indicators.length : ℚ) / ((max botUsernamePatternCount 1 : Nat) : ℚ)
         then "high" else "medium") := by
  unfold detectBotUsers at hb
  rw [(List.perm_insertionSort _ _).mem_iff, List.mem_filterMap] at hb
  obtain ⟨u, _, he⟩ := hb
  refine ⟨u, ?_⟩
  by_cases hth : botIndicatorsThreshold ≤ (botIndicators (userPosts posts u)).length
  · rw [if_pos hth] at he
    obtain rfl := Option.some_injective _ he
    exact ⟨hth, rfl, rfl, rfl⟩
  · rw [if_neg hth] at he
    exact absurd he (by simp)

/-- C6: `detect_bot_users` returns its flags sorted by descending bot score;
every flag's stored score equals `len(indicators) / max(pattern_count, 1)`
(the `min 1` cap never binds because at most three indicators exist), and the
risk level is `"high"` exactly when that score exceeds 0.7, else
`"medium"`. -/
theorem detectBotUsers_sorted_and_scores (posts : List Post) :
    ((detectBotUsers posts).map (fun b => b.bot_score)).Sorted (· ≥ ·) ∧
    ∀ b ∈ detectBotUsers posts,
      b.bot_score =
        (b.indicators.length : ℚ) / ((max botUsernamePatternCount 1 : Nat) : ℚ) ∧
      b.risk_level = (if (7/10 : ℚ) < b.bot_score then "high" else "medium") := by
  constructor
  · have hs : (detectBotUsers posts).Sorted botScoreDesc := by
      unfold detectBotUsers
      exact List.sorted_insertionSort _ _
    exact List.pairwise_map.mpr hs
  · intro b hb
    obtain ⟨u, hth, hinds, hscore, hlevel⟩ := mem_detectBotUsers hb
    have hlen : b.indicators.length ≤ 3 := hinds ▸ botIndicators_length_le _
    have hle1 : (b.indicators.length : ℚ) / ((max botUsernamePatternCount 1 : Nat) : ℚ) ≤ 1 := by
      have : (b.indicators.length : ℚ) ≤ 3 := by exact_mod_cast hlen
      rw [div_le_one (by norm_num [botUsernamePatternCount, botUsernamePatterns])]
      calc (b.indicators.length : ℚ) ≤ 3 := this
        _ ≤ ((max botUsernamePatternCount 1 : Nat) : ℚ) := by
            norm_num [botUsernamePatternCount, botUsernamePatterns]
    have hs : b.bot_score =
        (b.indicators.length : ℚ) / ((max botUsernamePatternCount 1 : Nat) : ℚ) := by
      rw [hscore, min_eq_right hle1]
    exact ⟨hs, by rw [hlevel, hs]⟩

/-- Witness for C6 at a two-post batch whose single user trips all three
indicators. -/
theorem detectBotUsers_sorted_and_scores_witness :
    ((detectBotUsers psBot).map (fun b => b.bot_score)).Sorted (· ≥ ·) ∧
    botFlagW ∈ detectBotUsers psBot ∧
    (botFlagW.bot_score =
        (botFlagW.indicators.length : ℚ) / ((max botUsernamePatternCount 1 : Nat) : ℚ) ∧
      botFlagW.risk_level = (if (7/10 : ℚ) < botFlagW.bot_score then "high" else "medium")) :=
  ⟨(detectBotUsers_sorted_and_scores psBot).1, by decide,
   (detectBotUsers_sorted_and_scores psBot).2 botFlagW (by decide)⟩

/-- C10: every flag `detect_bot_users` returns carries exactly the three
indicators `suspicious_username`, `repetitive_content`,
`high_frequency_posting` (as a set), has bot score exactly 0.75, and risk
level `"high"`; the `"medium"` level is unreachable under the default
configuration. -/
theorem detectBotUsers_flags_saturated (posts : List Post) :
    ∀ b ∈ detectBotUsers posts,
      b.indicators.Perm botIndicatorNames ∧ b.bot_score = 3/4 ∧ b.risk_level = "high" := by
  intro b hb
  obtain ⟨u, hth, hinds, hscore, hlevel⟩ := mem_detectBotUsers hb
  have hgood : GoodInds b.indicators := hinds ▸ goodInds_botIndicators _
  have hperm : b.indicators.Perm botIndicatorNames := by
    refine (List.subperm_of_subset hgood.1 hgood.2).perm_of_length_le ?_
    have : botIndicatorsThreshold ≤ b.indicators.length := hinds ▸ hth
    simpa [botIndicatorNames, botIndicatorsThreshold] using this
  have hlen : b.indicators.length = 3 := by
    simpa [botIndicatorNames] using hperm.length_eq
  have hsc : b.bot_score = 3/4 := by
    rw [hscore, hlen]
    norm_num [botUsernamePatternCount, botUsernamePatterns]
  refine ⟨hperm, hsc, ?_⟩
  rw [hlevel, hlen]
  norm_num [botUsernamePatternCount, botUsernamePatterns]

/-- Witness for C10 at the same concrete bot batch. -/
theorem detectBotUsers_flags_saturated_witness :
    botFlagW ∈ detectBotUsers psBot ∧
    (botFlagW.indicators.Perm botIndicatorNames ∧ botFlagW.bot_score = 3/4 ∧
      botFlagW.risk_level = "high") :=
  ⟨by decide, detectBotUsers_flags_saturated psBot botFlagW (by decide)⟩

/-- C8: a text with exactly two pro-India phrases and no anti-India phrase is
classified `Pro-India` with confidence `min 0.9 (2/2) = 0.9`, and a text with
no stance phrase and no topical mention is classified `Neutral` with
confidence 0.9. -/
theorem stance_classifier_pro_capped_and_neutral_default :
    proCount "proud india love india" = 2 ∧
    antiCount "proud india love india" = 0 ∧
    (classifyIndiaRelation "proud india love india").classification = "Pro-India" ∧
    (classifyIndiaRelation "proud india love india").confidence = 9/10 ∧
    proCount "hello world" = 0 ∧ antiCount "hello world" = 0 ∧
    indiaMentions "hello world" = 0 ∧
    (classifyIndiaRelation "hello world").classification = "Neutral" ∧
    (classifyIndiaRelation "hello world").confidence = 9/10 :=
  ⟨by decide, by decide, by decide, by decide, by decide, by decide, by decide,
   by decide, by decide⟩

/-- C9: the empty batch yields empty results from both detector entry points,
and a single-post batch (degenerate input) also yields empty results; both
operations are total functions in this embedding, so no input raises. -/
theorem empty_batch_yields_empty_results :
    detectCampaigns [] = [] ∧ detectBotUsers [] = [] ∧
    detectCampaigns [mkP "solo" "solo_name" "#alone post" 42] = [] ∧
    detectBotUsers [mkP "solo" "solo_name" "#alone post" 42] = [] :=
  ⟨by decide, by decide, by decide, by decide⟩



/-! ## Membership structure of the detect_campaigns output (claims C3-C5) -/

theorem mem_detectCampaigns {posts : List Post} {c : Campaign} :
    c ∈ detectCampaigns posts ↔
      c ∈ hashtagCampaigns posts ∨
      c ∈ ((suspiciousNetworks posts).filter
            (fun n => decide ((1/2 : ℚ) < n.risk_score))).map networkCampaign := by
  unfold detectCampaigns
  rw [(List.perm_insertionSort _ _).mem_iff, List.mem_append]

theorem mem_hashtagCampaigns {posts : List Post} {c : Campaign}
    (hc : c ∈ hashtagCampaigns posts) :
    ∃ h a, h ∈ allTags posts ∧ coordEntry posts h = some a ∧ c = tagCampaign posts h a := by
  unfold hashtagCampaigns at hc
  rw [List.mem_filterMap] at hc
  obtain ⟨h, hmem, heq⟩ := hc
  rw [Option.map_eq_some'] at heq
  obtain ⟨a, ha, hca⟩ := heq
  exact ⟨h, a, hmem, ha, hca.symm⟩

theorem coordEntry_eq_some {posts : List Post} {h : String} {a : TagActivity}
    (he : coordEntry posts h = some a) :
    minCampaignVolume ≤ tagTotal h posts ∧ 2 ≤ (tagSortedTs h posts).length ∧
      a = ⟨tagTotal h posts, tagUsers h posts, tagSpan h posts, tagFirst h posts,
           tagLast h posts, tagIndicators h posts, tagAvgPostsPerUser h posts⟩ := by
  unfold coordEntry at he
  by_cases h1 : tagTotal h posts < minCampaignVolume
  · rw [if_pos h1] at he
    exact absurd he (by simp)
  · rw [if_neg h1] at he
    by_cases h2 : (tagSortedTs h posts).length < 2
    · rw [if_pos h2] at he
      exact absurd he (by simp)
    · rw [if_neg h2] at he
      refine ⟨by omega, by omega, ?_⟩
      exact (Option.some_injective _ he).symm

/-- Every string the hashtag scanner emits is built by `tagOfAcc`. -/
theorem mem_scanTagsAux {t : String} :
    ∀ (st : Option (List Char)) (l : List Char), t ∈ scanTagsAux st l →
      ∃ acc, t = tagOfAcc acc := by
  intro st l
  induction l generalizing st with
  | nil =>
    intro ht
    cases st with
    | none => simp [scanTagsAux] at ht
    | some acc =>
      simp only [scanTagsAux] at ht
      split_ifs at ht
      · simp at ht
      · rw [List.mem_singleton] at ht
        exact ⟨acc, ht⟩
  | cons ch rest ih =>
    intro ht
    cases st with
    | none => exact ih _ ht
    | some acc =>
      simp only [scanTagsAux] at ht
      split_ifs at ht <;>
        first
          | exact ih _ ht
          | exact (List.mem_cons.mp ht).elim (fun he => ⟨acc, he⟩) (fun ht2 => ih _ ht2)

theorem allTags_shape {posts : List Post} {h : String} (hm : h ∈ allTags posts) :
    ∃ acc, h = tagOfAcc acc := by
  unfold allTags at hm
  rw [List.mem_dedup, List.mem_flatMap] at hm
  obtain ⟨p, _, hp⟩ := hm
  exact mem_scanTagsAux _ _ hp

/-- A scanned hashtag (starting with `#`) is never a network pseudo-hashtag
(starting with `n`). -/
theorem tagOfAcc_ne_network (acc : List Char) (s : String) :
    tagOfAcc acc ≠ "network_" ++ s := by
  intro he
  have hd := congrArg (fun t => t.data.head?) he
  simp only [tagOfAcc] at hd
  have hn : ("network_" ++ s).data.head? = some 'n' := rfl
  rw [hn] at hd
  simp at hd

/-- C3, counterexample: five same-hashtag posts sharing one timestamp form a
group with a single distinct timestamp, yet the `#s` campaign is returned
(the code checks `len(timestamps) < 2` with multiplicity, not distinctness,
and that check is subsumed by the volume filter). -/
theorem distinct_timestamp_filter_not_enforced :
    ((tagOccurrences "#s" b5same).map (fun p => p.created_at)).dedup.length = 1 ∧
    (detectCampaigns b5same).map (fun c => c.hashtag) = ["#s"] :=
  ⟨by decide, by decide⟩

/-- C3 (amended): a hashtag group with fewer than `min_campaign_volume` (5)
posts never appears in the output of `detect_campaigns` (the timestamp-count
check is with multiplicity and cannot fire once the volume filter passes);
at the boundary, a 5-post group is returned and a 4-post group is not. -/
theorem low_volume_hashtags_never_output :
    (∀ (posts : List Post) (h : String), h ∈ allTags posts →
        tagTotal h posts < minCampaignVolume →
        h ∉ (detectCampaigns posts).map (fun c => c.hashtag)) ∧
    (detectCampaigns b5).map (fun c => (c.hashtag, c.volume)) = [("#t", 5)] ∧
    detectCampaigns b4 = [] := by
  refine ⟨?_, by decide, by decide⟩
  intro posts h hmem hlt hin
  rw [List.mem_map] at hin
  obtain ⟨c, hc, hch⟩ := hin
  rcases mem_detectCampaigns.mp hc with hht | hnet
  · obtain ⟨h2, a, _, hsome, rfl⟩ := mem_hashtagCampaigns hht
    have hb := (coordEntry_eq_some hsome).1
    have hh2 : h2 = h := hch
    rw [hh2] at hb
    omega
  · rw [List.mem_map] at hnet
    obtain ⟨n, _, rfl⟩ := hnet
    obtain ⟨acc, rfl⟩ := allTags_shape hmem
    exact tagOfAcc_ne_network acc n.id hch.symm

/-! ## Connected-component facts (used by claims C4 and C5) -/

theorem componentsAux_facts (isAdj : String → String → Bool) (S : List String) :
    ∀ (us : List String) (comps : List (List String)),
      us.Nodup →
      (∀ u ∈ us, u ∈ S) →
      (∀ u ∈ us, ∀ c ∈ comps, u ∉ c) →
      (∀ c ∈ comps, c ≠ [] ∧ c.Nodup ∧ ∀ x ∈ c, x ∈ S) →
      comps.Pairwise List.Disjoint →
      ∀ c ∈ componentsAux isAdj us comps, c ≠ [] ∧ c.Nodup ∧ ∀ x ∈ c, x ∈ S := by
  intro us
  induction us with
  | nil => intro comps _ _ _ hc _ c hcm; exact hc c hcm
  | cons u us ih =>
    intro comps hnd hus hfresh hc hpw c hcm
    have hndus : us.Nodup := (List.nodup_cons.mp hnd).2
    have hu_not_us : u ∉ us := (List.nodup_cons.mp hnd).1
    have hu_not : ∀ c' ∈ comps, u ∉ c' := hfresh u (List.mem_cons_self _ _)
    have hstep : componentsAux isAdj (u :: us) comps =
        componentsAux isAdj us (addUserToComponents isAdj comps u) := rfl
    rw [hstep] at hcm
    have haddeq : addUserToComponents isAdj comps u =
        (u :: (comps.filter (fun c => c.any (isAdj u))).flatten) ::
          comps.filter (fun c => !(c.any (isAdj u))) := rfl
    have hflat_mem : ∀ x ∈ (comps.filter (fun c => c.any (isAdj u))).flatten,
        ∃ l, l ∈ comps ∧ x ∈ l := by
      intro x hx
      rw [List.mem_flatten] at hx
      obtain ⟨l, hl, hxl⟩ := hx
      exact ⟨l, (List.filter_sublist _).subset hl, hxl⟩
    have hnew_nd : (u :: (comps.filter (fun c => c.any (isAdj u))).flatten).Nodup := by
      rw [List.nodup_cons]
      refine ⟨?_, ?_⟩
      · intro hx
        obtain ⟨l, hl, hxl⟩ := hflat_mem u hx
        exact hu_not l hl hxl
      · rw [List.nodup_flatten]
        exact ⟨fun l hl => (hc l ((List.filter_sublist _).subset hl)).2.1,
          hpw.sublist (List.filter_sublist _)⟩
    refine ih (addUserToComponents isAdj comps u) hndus
      (fun v hv => hus v (List.mem_cons_of_mem _ hv)) ?_ ?_ ?_ c hcm
    · -- the remaining users are fresh for the merged decomposition
      intro v hv c' hc' hvc
      rw [haddeq] at hc'
      rcases List.mem_cons.mp hc' with rfl | hc2
      · rcases List.mem_cons.mp hvc with rfl | hv2
        · exact hu_not_us hv
        · obtain ⟨l, hl, hvl⟩ := hflat_mem v hv2
          exact hfresh v (List.mem_cons_of_mem _ hv) l hl hvl
      · exact hfresh v (List.mem_cons_of_mem _ hv) c'
          ((List.filter_sublist _).subset hc2) hvc
    · -- every component of the merged decomposition is well formed
      intro c' hc'
      rw [haddeq] at hc'
      rcases List.mem_cons.mp hc' with rfl | hc2
      · refine ⟨by simp, hnew_nd, ?_⟩
        intro x hx
        rcases List.mem_cons.mp hx with rfl | hx2
        · exact hus x (List.mem_cons_self _ _)
        · obtain ⟨l, hl, hxl⟩ := hflat_mem x hx2
          exact (hc l hl).2.2 x hxl
      · exact hc c' ((List.filter_sublist _).subset hc2)
    · -- the merged decomposition is pairwise disjoint
      rw [haddeq]
      refine List.pairwise_cons.mpr ⟨?_, hpw.sublist (List.filter_sublist _)⟩
      intro b hb x hx hxb
      rcases List.mem_cons.mp hx with rfl | hx2
      · exact hu_not b ((List.filter_sublist _).subset hb) hxb
      · rw [List.mem_flatten] at hx2
        obtain ⟨l, hl, hxl⟩ := hx2
        have hlc : l ∈ comps := (List.filter_sublist _).subset hl
        have hbc : b ∈ comps := (List.filter_sublist _).subset hb
        have hne : l ≠ b := by
          intro he
          have h1 := (List.mem_filter.mp hl).2
          have h2 := (List.mem_filter.mp hb).2
          rw [he] at h1
          rw [h1] at h2
          exact absurd h2 (by decide)
        have hsymm : Symmetric (List.Disjoint (α := String)) :=
          fun l1 l2 hd a ha hb => hd hb ha
        exact List.Pairwise.forall hsymm hpw hlc hbc hne hxl hxb

/-- Every connected component the detector builds is nonempty, duplicate
free, and drawn from the batch's user ids. -/
theorem components_facts {posts : List Post} :
    ∀ c ∈ components posts, c ≠ [] ∧ c.Nodup ∧ ∀ x ∈ c, x ∈ usersOf posts := by
  apply componentsAux_facts (adjacent posts) (usersOf posts) (usersOf posts) []
  · exact List.nodup_dedup _
  · exact fun u hu => hu
  · intro u _ c hc
    exact absurd hc (List.not_mem_nil c)
  · intro c hc
    exact absurd hc (List.not_mem_nil c)
  · exact List.Pairwise.nil

theorem mem_usersOf {posts : List Post} {u : String} (hu : u ∈ usersOf posts) :
    ∃ p, p ∈ posts ∧ p.user_id = u := by
  unfold usersOf at hu
  rw [List.mem_dedup, List.mem_map] at hu
  exact hu

/-- A duplicate-free user list drawn from the batch has at least as many
posts as users (each user contributes at least one distinct post). -/
theorem component_card_le_networkPosts {posts : List Post} {c : List String}
    (hnd : c.Nodup) (hsub : ∀ x ∈ c, x ∈ usersOf posts) :
    c.length ≤ (networkPosts posts c).length := by
  have h1 : c.toFinset ⊆ ((networkPosts posts c).map (fun p => p.user_id)).toFinset := by
    intro u hu
    rw [List.mem_toFinset] at hu ⊢
    obtain ⟨p, hp, hpu⟩ := mem_usersOf (hsub u hu)
    rw [List.mem_map]
    refine ⟨p, ?_, hpu⟩
    unfold networkPosts
    rw [List.mem_filter]
    refine ⟨hp, ?_⟩
    rw [hpu]
    exact List.elem_iff.mpr hu
  calc c.length = c.toFinset.card := (List.toFinset_card_of_nodup hnd).symm
    _ ≤ ((networkPosts posts c).map (fun p => p.user_id)).toFinset.card :=
        Finset.card_le_card h1
    _ ≤ ((networkPosts posts c).map (fun p => p.user_id)).length :=
        List.toFinset_card_le _
    _ = (networkPosts posts c).length := List.length_map _ _

/-! ## Bounds used by the Campaign invariants (claim C4) -/

theorem riskScore_nonneg (posts : List Post) (a : TagActivity) :
    0 ≤ riskScore posts a := by
  unfold riskScore
  refine le_min (by norm_num) ?_
  have hA : (0:ℚ) ≤ min 1 ((a.total_posts : ℚ) / 100) * (3/10) :=
    mul_nonneg (le_min zero_le_one (by positivity)) (by norm_num)
  have hD : (0:ℚ) ≤ (a.indicators.length : ℚ) * (1/10) := by positivity
  have hBot : (0:ℚ) ≤
      ((a.users.countP (fun u => decide (botIndicatorsThreshold ≤
          (botIndicators (userPosts posts u)).length)) : ℚ) / (a.users.length : ℚ)) * (3/10) :=
    mul_nonneg (by positivity) (by norm_num)
  have hIte : (0:ℚ) ≤
      (if a.time_span < 1 then (3:ℚ)/10 else if a.time_span < 6 then (2:ℚ)/10 else 0) := by
    split_ifs <;> norm_num
  by_cases hu : 0 < a.users.length
  · rw [if_pos hu]
    exact add_nonneg (add_nonneg (add_nonneg hA hIte) hBot) hD
  · rw [if_neg hu]
    exact add_nonneg (add_nonneg hA hIte) hD

theorem riskScore_le_one (posts : List Post) (a : TagActivity) :
    riskScore posts a ≤ 1 := by
  unfold riskScore
  exact min_le_left _ _

theorem sorted_headD_le_getLastD {l : List Nat}
    (hs : List.Sorted (fun x y => x ≤ y) l) (hne : l ≠ []) :
    l.headD 0 ≤ l.getLastD 0 := by
  cases l with
  | nil => exact absurd rfl hne
  | cons a t =>
    have hlast : (a :: t).getLastD 0 = (a :: t).getLast (by simp) := by
      rw [List.getLastD_eq_getLast?, List.getLast?_eq_getLast _ (by simp)]
      rfl
    have hmem := List.getLast_mem (l := a :: t) (by simp)
    rcases List.mem_cons.mp hmem with he | ht
    · rw [hlast, he]
      exact Nat.le.refl
    · rw [hlast]
      exact (List.sorted_cons.mp hs).1 _ ht

theorem foldl_min_le (a : Nat) (t : List Nat) : t.foldl min a ≤ a := by
  induction t generalizing a with
  | nil => exact le_refl a
  | cons b t ih => exact le_trans (ih (min a b)) (min_le_left a b)

theorem le_foldl_max (a : Nat) (t : List Nat) : a ≤ t.foldl max a := by
  induction t generalizing a with
  | nil => exact le_refl a
  | cons b t ih => exact le_trans (le_max_left a b) (ih (max a b))

theorem listMinD_le_listMaxD (l : List Nat) : listMinD l ≤ listMaxD l := by
  cases l with
  | nil => exact le_refl 0
  | cons a t => exact le_trans (foldl_min_le a t) (le_foldl_max a t)

/-! ## Inversion and existence for the network fold (claims C4, C5) -/

theorem mem_networksStep_foldl (posts : List Post) :
    ∀ (cs : List (List String)) (acc : List Network) (n : Network),
      n ∈ cs.foldl (networksStep posts) acc →
      n ∈ acc ∨ ∃ idx c, c ∈ cs ∧ n = mkNetwork posts idx c (networkPosts posts c)
  | [], _, _, hn => Or.inl hn
  | c0 :: cs, acc, n, hn => by
    rcases mem_networksStep_foldl posts cs (networksStep posts acc c0) n hn with
      hacc | ⟨idx, c, hc, he⟩
    · dsimp only [networksStep] at hacc
      split_ifs at hacc with h
      · exact Or.inl hacc
      · rcases List.mem_append.mp hacc with h1 | h2
        · exact Or.inl h1
        · rw [List.mem_singleton] at h2
          exact Or.inr ⟨acc.length, c0, List.mem_cons_self _ _, h2⟩
    · exact Or.inr ⟨idx, c, List.mem_cons_of_mem _ hc, he⟩

theorem mem_suspiciousNetworks {posts : List Post} {n : Network}
    (hn : n ∈ suspiciousNetworks posts) :
    ∃ idx c, c ∈ components posts ∧ 3 ≤ c.length ∧
      n = mkNetwork posts idx c (networkPosts posts c) := by
  unfold suspiciousNetworks at hn
  rcases mem_networksStep_foldl posts _ _ _ hn with h | ⟨idx, c, hc, he⟩
  · exact absurd h (List.not_mem_nil n)
  · rw [List.mem_filter] at hc
    exact ⟨idx, c, hc.1, by simpa using hc.2, he⟩

theorem networksStep_foldl_mono (posts : List Post) :
    ∀ (cs : List (List String)) (acc : List Network) (n : Network),
      n ∈ acc → n ∈ cs.foldl (networksStep posts) acc
  | [], _, _, h => h
  | c0 :: cs, acc, n, h => by
    apply networksStep_foldl_mono posts cs
    dsimp only [networksStep]
    split_ifs
    · exact h
    · exact List.mem_append.mpr (Or.inl h)

theorem networksStep_foldl_mem (posts : List Post) :
    ∀ (cs : List (List String)) (acc : List Network) (c : List String), c ∈ cs →
      ¬(networkPosts posts c).isEmpty = true →
      ∃ idx, mkNetwork posts idx c (networkPosts posts c) ∈
        cs.foldl (networksStep posts) acc
  | [], _, c, hc, _ => absurd hc (List.not_mem_nil c)
  | c0 :: cs, acc, c, hc, hne => by
    rcases List.mem_cons.mp hc with rfl | hc2
    · refine ⟨acc.length, ?_⟩
      apply networksStep_foldl_mono posts cs
      dsimp only [networksStep]
      rw [if_neg hne]
      exact List.mem_append.mpr (Or.inr (List.mem_singleton.mpr rfl))
    · exact networksStep_foldl_mem posts cs (networksStep posts acc c0) c hc2 hne

/-- A nonempty component has at least one post in the batch. -/
theorem networkPosts_not_isEmpty {posts : List Post} {c : List String}
    (hc : c ∈ components posts) (hne : c ≠ []) :
    ¬(networkPosts posts c).isEmpty = true := by
  obtain ⟨_, _, hsub⟩ := components_facts c hc
  cases c with
  | nil => exact absurd rfl hne
  | cons u crest =>
    obtain ⟨p, hp, hpu⟩ := mem_usersOf (hsub u (List.mem_cons_self _ _))
    have hmem : p ∈ networkPosts posts (u :: crest) := by
      unfold networkPosts
      rw [List.mem_filter]
      refine ⟨hp, ?_⟩
      rw [hpu]
      exact List.elem_iff.mpr (List.mem_cons_self _ _)
    intro hisEmpty
    rw [List.isEmpty_iff] at hisEmpty
    rw [hisEmpty] at hmem
    exact absurd hmem (List.not_mem_nil p)

/-- Every connected component of size at least 3 yields a network record. -/
theorem component_yields_network {posts : List Post} {c : List String}
    (hc : c ∈ components posts) (h3 : 3 ≤ c.length) :
    ∃ idx, mkNetwork posts idx c (networkPosts posts c) ∈ suspiciousNetworks posts := by
  have hne0 : c ≠ [] := (components_facts c hc).1
  unfold suspiciousNetworks
  exact networksStep_foldl_mem posts _ [] c
    (List.mem_filter.mpr ⟨hc, by simpa using h3⟩)
    (networkPosts_not_isEmpty hc hne0)

/-- C4: every Campaign record `detect_campaigns` returns has at most as many
unique users as posts, a risk score within `[0, 1]`, and a first-detected
timestamp no later than its last-detected timestamp. -/
theorem campaign_invariants (posts : List Post) :
    ∀ c ∈ detectCampaigns posts,
      c.unique_users ≤ c.volume ∧ 0 ≤ c.risk_score ∧ c.risk_score ≤ 1 ∧
      c.first_detected ≤ c.last_detected := by
  intro c hc
  rcases mem_detectCampaigns.mp hc with hht | hnet
  · obtain ⟨h, a, _, hsome, rfl⟩ := mem_hashtagCampaigns hht
    obtain ⟨hvol, hlen2, rfl⟩ := coordEntry_eq_some hsome
    refine ⟨?_, riskScore_nonneg _ _, riskScore_le_one _ _, ?_⟩
    · show (tagUsers h posts).length ≤ tagTotal h posts
      unfold tagUsers tagTotal
      calc ((tagOccurrences h posts).map (fun p => p.user_id)).dedup.length
          ≤ ((tagOccurrences h posts).map (fun p => p.user_id)).length :=
            (List.dedup_sublist _).length_le
        _ = (tagOccurrences h posts).length := List.length_map _ _
    · show tagFirst h posts ≤ tagLast h posts
      unfold tagFirst tagLast
      apply sorted_headD_le_getLastD
      · unfold tagSortedTs
        exact List.sorted_insertionSort _ _
      · intro h0
        rw [h0] at hlen2
        simp at hlen2
  · rw [List.mem_map] at hnet
    obtain ⟨n, hnf, rfl⟩ := hnet
    rw [List.mem_filter] at hnf
    obtain ⟨hnmem, hrisk⟩ := hnf
    obtain ⟨idx, cc, hcc, h3, rfl⟩ := mem_suspiciousNetworks hnmem
    obtain ⟨hne0, hnd, hsub⟩ := components_facts cc hcc
    refine ⟨?_, ?_, ?_, ?_⟩
    · show cc.length ≤ (networkPosts posts cc).length
      exact component_card_le_networkPosts hnd hsub
    · have h12 : (1/2 : ℚ) <
          (networkCampaign (mkNetwork posts idx cc (networkPosts posts cc))).risk_score := by
        simpa using hrisk
      linarith
    · show min 1 (density posts cc * (cc.length : ℚ) / 10) ≤ 1
      exact min_le_left _ _
    · show listMinD ((networkPosts posts cc).map (fun p => p.created_at)) ≤
        listMaxD ((networkPosts posts cc).map (fun p => p.created_at))
      exact listMinD_le_listMaxD _

/-- The Campaign record `detect_campaigns` produces for the batch `ps2`. -/
def campW : Campaign :=
  ⟨"#test", 6, 2, 5/12, 209/500, 1000, 2500, ["concentrated_timing"], ["u1", "u2"]⟩

/-- Witness for C4 at the concrete batch `ps2` and its output campaign. -/
theorem campaign_invariants_witness :
    campW ∈ detectCampaigns ps2 ∧
    (campW.unique_users ≤ campW.volume ∧ 0 ≤ campW.risk_score ∧
      campW.risk_score ≤ 1 ∧ campW.first_detected ≤ campW.last_detected) :=
  ⟨by decide, campaign_invariants ps2 campW (by decide)⟩

/-! ## Network finding characterization (claim C5) -/

theorem mem_networkIndicators_hd (posts : List Post) (c : List String) (nps : List Post) :
    "high_density_network" ∈ networkIndicators posts c nps ↔
      (7/10 : ℚ) < density posts c := by
  unfold networkIndicators
  split_ifs with h1 h2 h3
  · exact iff_of_true (List.mem_cons_self _ _) h1
  · exact iff_of_true (List.mem_cons_self _ _) h1
  · exact iff_of_false (by decide) h1
  · exact iff_of_false (by simp) h1

theorem mem_networkIndicators_ct (posts : List Post) (c : List String) (nps : List Post) :
    "coordinated_timing" ∈ networkIndicators posts c nps ↔ coordTiming nps = true := by
  unfold networkIndicators
  split_ifs with h1 h2 h3
  · exact iff_of_true (by decide) h2
  · exact iff_of_false (by decide) h2
  · exact iff_of_true (List.mem_cons_self _ _) h3
  · exact iff_of_false (by simp) h3

/-- C5 (amended): the output of `detect_campaigns` is sorted by descending
risk score; every connected component of size at least 3 yields a network
finding with `risk_score = min 1 (density * size / 10)` and with
`high_density_network` exactly when `density > 0.7` and `coordinated_timing`
exactly when more than 30% of consecutive post gaps are under 60 seconds;
but only the findings with `risk_score > 0.5` are merged into the output
(the claim's "all such network findings are merged" fails). -/
theorem network_findings_characterization (posts : List Post) :
    ((detectCampaigns posts).map (fun c => c.risk_score)).Sorted (· ≥ ·) ∧
    (∀ c ∈ components posts, 3 ≤ c.length →
      ∃ n ∈ suspiciousNetworks posts,
        n.users = c ∧ n.size = c.length ∧ n.density = density posts c ∧
        n.risk_score = min 1 (density posts c * (c.length : ℚ) / 10) ∧
        ("high_density_network" ∈ n.indicators ↔ (7/10 : ℚ) < density posts c) ∧
        ("coordinated_timing" ∈ n.indicators ↔
          coordTiming (networkPosts posts c) = true)) ∧
    (∀ n ∈ suspiciousNetworks posts, (1/2 : ℚ) < n.risk_score →
      networkCampaign n ∈ detectCampaigns posts) := by
  refine ⟨?_, ?_, ?_⟩
  · have hs : (detectCampaigns posts).Sorted riskDesc := by
      unfold detectCampaigns
      exact List.sorted_insertionSort _ _
    exact List.pairwise_map.mpr hs
  · intro c hc h3
    obtain ⟨idx, hmem⟩ := component_yields_network hc h3
    exact ⟨mkNetwork posts idx c (networkPosts posts c), hmem, rfl, rfl, rfl, rfl,
      mem_networkIndicators_hd posts c (networkPosts posts c),
      mem_networkIndicators_ct posts c (networkPosts posts c)⟩
  · intro n hn hrisk
    rw [mem_detectCampaigns]
    right
    rw [List.mem_map]
    exact ⟨n, List.mem_filter.mpr ⟨hn, by simpa using hrisk⟩, rfl⟩

/-- C5, counterexample: three users sharing hashtag `#y` (one post each) form
one connected component of size 3 with density 1, yielding a network finding
with `risk_score = 0.3`; since `0.3 ≤ 0.5`, `detect_campaigns` returns the
empty list — the size-3 component's finding is never merged into the
output. -/
theorem small_components_never_merged :
    (components ps3).map (fun c => c.length) = [3] ∧
    (suspiciousNetworks ps3).map (fun n => (n.size, n.density, n.risk_score)) =
      [(3, 1, 3/10)] ∧
    detectCampaigns ps3 = [] :=
  ⟨by decide, by decide, by decide⟩

/-- The network record `_detect_suspicious_networks` produces for `ps6`. -/
def nW : Network :=
  ⟨"net_0", ["n6", "n5", "n4", "n3", "n2", "n1"], 6, 1, 6, 3/5, 0, 50, 1/72,
   ["high_density_network", "coordinated_timing"]⟩

/-- Witness for C5 at the concrete batch `ps6`, whose 6-user component's
finding has risk 0.6 > 0.5 and is merged into the output. -/
theorem network_findings_characterization_witness :
    nW ∈ suspiciousNetworks ps6 ∧ (1/2 : ℚ) < nW.risk_score ∧
    networkCampaign nW ∈ detectCampaigns ps6 :=
  ⟨by decide, by decide,
   (network_findings_characterization ps6).2.2 nW (by decide) (by decide)⟩

/-- The C3 witness batch: `b5` plus one extra post with hashtag `#rare`. -/
def bMix : List Post := b5 ++ [mkP "u3" "dave" "#rare find" 999]

/-- Witness for C3 at the concrete batch `bMix`: `#rare` occurs once (below
the volume threshold) and indeed never appears in the output. -/
theorem low_volume_hashtags_never_output_witness :
    "#rare" ∈ allTags bMix ∧ tagTotal "#rare" bMix < minCampaignVolume ∧
    "#rare" ∉ (detectCampaigns bMix).map (fun c => c.hashtag) :=
  ⟨by decide, by decide,
   low_volume_hashtags_never_output.1 bMix "#rare" (by decide) (by decide)⟩

end HexaCiphers
